import Mathlib

/-!
Verification of the `pallet-market` constant-product AMM
(`src/frame/market/src/lib.rs`): a shallow embedding of its storage, its
three dispatchables (`mint_liquidity`, `burn_liquidity`, `swap`) and its
internal helpers (`_set_reserves`, `_set_pair`, `_get_amount_out`,
`_update`), together with theorems settling the specification claims.

Machine integers are embedded as `Nat` with explicit bounds: `Balance` is
`u128`, so every checked operation of the source is a partial operation
guarded by `2 ^ 128`, and every plain arithmetic operation of the source
(which panics under overflow checks) is guarded the same way.  A Rust
panic (`expect`, arithmetic overflow, division by zero) aborts the whole
dispatch with no state change and is embedded as the outcome `fatal`.
A dispatch returning `Err` in this Substrate generation does not roll the
storage back, so the outcome `err` carries the state reached at the point
of the error.
-/

namespace Subswap

abbrev AssetId := Nat
abbrev AccountId := Nat
abbrev Balance := Nat

/-- Upper bound of `u128`, the `Balance` type of the runtime. -/
def U128LIM : Nat := 2 ^ 128

/-- Checked `u128` addition: `checked_add`, and also the plain `+` of the
source, which panics on overflow. -/
def cAdd (a b : Nat) : Option Nat :=
  if a + b < U128LIM then some (a + b) else none

/-- Checked `u128` subtraction: `checked_sub`, and also the plain `-` of the
source, which panics on underflow. -/
def cSub (a b : Nat) : Option Nat :=
  if b ≤ a then some (a - b) else none

/-- Checked `u128` multiplication: `checked_mul`, and also the plain `*` of
the source, which panics on overflow. -/
def cMul (a b : Nat) : Option Nat :=
  if a * b < U128LIM then some (a * b) else none

/-- Checked division: `checked_div`, `None` on a zero divisor. -/
def cDiv (a b : Nat) : Option Nat :=
  if b = 0 then none else some (a / b)

/-- `Module::_get_amount_out` (lib.rs 416-433): the swap pricing function.
`amount_in * 997` and the two further products are `checked_mul`
(panicking via `expect` on overflow, embedded as `none`); the final `/` is
the plain integer division of Rust, which panics when the denominator is
zero. -/
def getAmountOut (amountIn reserveIn reserveOut : Balance) : Option Balance :=
  match cMul amountIn 997 with
  | none => none
  | some amountInWithFee =>
    match cMul amountInWithFee reserveOut with
    | none => none
    | some numerator =>
      match cMul reserveIn 1000 with
      | none => none
      | some d0 =>
        match cAdd d0 amountInWithFee with
        | none => none
        | some denominator =>
          if denominator = 0 then none else some (numerator / denominator)

/-- Newton step iteration for the integer square root, with explicit fuel
so that it is kernel-evaluable; it follows the iteration of `Nat.sqrt`
and is proved equal to it below. -/
def sqrtIter (fuel n guess : Nat) : Nat :=
  match fuel with
  | 0 => guess
  | fuel + 1 =>
    let next := (guess + n / guess) / 2
    if next < guess then sqrtIter fuel n next else guess

/-- Modelled from the spec: `math::sqrt` of the missing `math` module
(`mod math`, not under `src/`); the spec (§4.1) requires the exact integer
square root, `isqrt(x) = floor(sqrt(x))`, computed by Newton/Heron
iteration to the fixed point.  Proved equal to `Nat.sqrt` below. -/
def mathSqrt (n : Nat) : Nat :=
  if n ≤ 1 then n else sqrtIter n n (n / 2)

/-- Modelled from the spec: `math::min` of the missing `math` module;
the minimum of two balances. -/
def mathMin (a b : Balance) : Balance := min a b

/-- The storage of the pallet (decl_storage, lib.rs 171-180) together with
the slice of the external asset ledger the dispatchables drive (spec §6:
total supply, per-account balances, the system-held balance, and the
next-asset-id counter).  Map storage items return a default value on a
missing key, hence `Option` plus explicit defaulting getters. -/
structure MarketState where
  lastBlockTimestamp : Nat
  lastAccumulativePrice : AssetId → Option (Nat × Nat)
  rewardsMap : AssetId → Option (AssetId × AssetId)
  reservesMap : AssetId → Option (Balance × Balance)
  pairsMap : AssetId × AssetId → Option AssetId
  nextAssetId : AssetId
  totalSupplyMap : AssetId → Balance
  userBalance : AssetId → AccountId → Balance
  systemBalance : AssetId → Balance

/-- `Self::reserves(lpt)`: map getter, `(0, 0)` on a missing key. -/
def MarketState.reserves (st : MarketState) (lpt : AssetId) : Balance × Balance :=
  (st.reservesMap lpt).getD (0, 0)

/-- `Self::reward(lpt)`: map getter, the default `(0, 0)` on a missing key. -/
def MarketState.reward (st : MarketState) (lpt : AssetId) : AssetId × AssetId :=
  (st.rewardsMap lpt).getD (0, 0)

/-- Point update of a one-key map. -/
def upd1 {β : Type} (f : Nat → β) (k : Nat) (v : β) : Nat → β :=
  fun x => if x = k then v else f x

/-- Point update of a pair-keyed map. -/
def updP {β : Type} (f : AssetId × AssetId → β) (k : AssetId × AssetId) (v : β) :
    AssetId × AssetId → β :=
  fun x => if x = k then v else f x

/-- Point update of a two-key map. -/
def upd2 {β : Type} (f : Nat → Nat → β) (k1 k2 : Nat) (v : β) : Nat → Nat → β :=
  fun x y => if x = k1 ∧ y = k2 then v else f x y

/-- Modelled from the spec: `asset::Module::transfer_to_system` of the
external asset ledger (spec §6): moves `amt` of asset `aid` from the
account `who` to the system balance, failing (with the ledger balance
check) when the account holds less than `amt`. -/
def transferToSystem (aid : AssetId) (who : AccountId) (amt : Balance)
    (st : MarketState) : Option MarketState :=
  if amt ≤ st.userBalance aid who then
    some { st with
      userBalance := upd2 st.userBalance aid who (st.userBalance aid who - amt),
      systemBalance := upd1 st.systemBalance aid (st.systemBalance aid + amt) }
  else none

/-- Modelled from the spec: `asset::Module::transfer_from_system` of the
external asset ledger (spec §6): moves `amt` of asset `aid` from the
system balance to the account `who`, failing when the system balance is
short. -/
def transferFromSystem (aid : AssetId) (who : AccountId) (amt : Balance)
    (st : MarketState) : Option MarketState :=
  if amt ≤ st.systemBalance aid then
    some { st with
      systemBalance := upd1 st.systemBalance aid (st.systemBalance aid - amt),
      userBalance := upd2 st.userBalance aid who (st.userBalance aid who + amt) }
  else none

/-- Modelled from the spec: `asset::Module::issue_from_system` of the
external asset ledger (spec §6): allocates the asset id
`next_asset_id()` with the given initial supply held by the system and
advances the counter; the freshly issued id equals the counter value
before the call. -/
def issueFromSystem (initialSupply : Balance) (st : MarketState) : MarketState :=
  { st with
    totalSupplyMap := upd1 st.totalSupplyMap st.nextAssetId initialSupply,
    systemBalance := upd1 st.systemBalance st.nextAssetId initialSupply,
    nextAssetId := st.nextAssetId + 1 }

/-- Modelled from the spec: `asset::Module::mint_from_system` of the
external asset ledger (spec §6): mints `amt` of `aid` to `who`, growing
the total supply, with the `u128` supply bound checked. -/
def mintFromSystem (aid : AssetId) (who : AccountId) (amt : Balance)
    (st : MarketState) : Option MarketState :=
  match cAdd (st.totalSupplyMap aid) amt with
  | none => none
  | some s =>
    some { st with
      totalSupplyMap := upd1 st.totalSupplyMap aid s,
      userBalance := upd2 st.userBalance aid who (st.userBalance aid who + amt) }

/-- Modelled from the spec: `asset::Module::burn_from_system` of the
external asset ledger (spec §6): burns `amt` of `aid` held by `who`,
shrinking the total supply, failing when the account holds less. -/
def burnFromSystem (aid : AssetId) (who : AccountId) (amt : Balance)
    (st : MarketState) : Option MarketState :=
  if amt ≤ st.userBalance aid who then
    some { st with
      totalSupplyMap := upd1 st.totalSupplyMap aid (st.totalSupplyMap aid - amt),
      userBalance := upd2 st.userBalance aid who (st.userBalance aid who - amt) }
  else none

/-- The events of `decl_event` (lib.rs 184-203) that the three
dispatchables can deposit. -/
inductive MEvent where
  | CreatePair (token0 token1 lpt : AssetId)
  | SwapEv (tokenFrom : AssetId) (amountIn : Balance) (tokenTo : AssetId) (amountOut : Balance)
  | MintedLiquidity (token0 token1 lpt : AssetId)
  | BurnedLiquidity (lpt token0 token1 : AssetId)
  | Sync (price0 price1 : Nat)
deriving DecidableEq

/-- The error enum of `decl_error` (lib.rs 206-224), plus `AssetLedger`
standing for any error propagated with `?` from the external asset pallet
(whose code is not part of this crate). -/
inductive MarketError where
  | NoneValue
  | StorageOverflow
  | InSufficientBalance
  | PairExists
  | LptExists
  | InvalidPair
  | IdenticalIdentifier
  | InsufficientLiquidityMinted
  | InsufficientLiquidityBurned
  | InsufficientOutputAmount
  | InsufficientAmount
  | InsufficientLiquidity
  | K
  | AssetLedger
deriving DecidableEq

/-- Result of one dispatch: `ok` with the new state and the deposited
events; `err` with the dispatch error and the state reached when it was
returned (this Substrate generation does not roll storage back on `Err`);
`fatal` for a Rust panic, which aborts the extrinsic with no state
change. -/
inductive Outcome where
  | ok (st : MarketState) (evs : List MEvent)
  | err (e : MarketError) (st : MarketState)
  | fatal

/-- Whether the dispatch committed successfully. -/
def Outcome.isOk : Outcome → Bool
  | .ok _ _ => true
  | _ => false

/-- The error of a failed dispatch, if any. -/
def Outcome.errOf : Outcome → Option MarketError
  | .err e _ => some e
  | _ => none

/-- The state carried by the outcome, with a default for `fatal`. -/
def Outcome.stateD : Outcome → MarketState → MarketState
  | .ok st _, _ => st
  | .err _ st, _ => st
  | .fatal, d => d

/-- `Module::_set_reserves` (lib.rs 394-409): writes the reserve pair
keyed by the pool-share id, transposing the two amounts when
`token0 > token1`, so that what is persisted is in canonical order of the
caller-supplied token arguments. -/
def setReserves (token0 token1 : AssetId) (amount0 amount1 : Balance)
    (lptoken : AssetId) (st : MarketState) : MarketState :=
  if token1 < token0 then
    { st with reservesMap := upd1 st.reservesMap lptoken (some (amount1, amount0)) }
  else
    { st with reservesMap := upd1 st.reservesMap lptoken (some (amount0, amount1)) }

/-- `Module::_set_pair` (lib.rs 411-414): registers the pool-share id under
both orderings of the token pair. -/
def setPair (token0 token1 lptoken : AssetId) (st : MarketState) : MarketState :=
  { st with pairsMap :=
      (updP (updP st.pairsMap (token0, token1) (some lptoken)) (token1, token0) (some lptoken)) }

/-- The modulus used by `Module::_update` (lib.rs 367): the source computes
it as `2u32.pow(32)`, which overflows `u32`: under overflow checks the
`pow` itself panics, and in a build with wrapping arithmetic it evaluates
to `2 ^ 32 mod 2 ^ 32 = 0`, after which the `%` panics on the zero
divisor.  Either way the expression never yields the intended `2 ^ 32`. -/
def oracleModulus : Nat := 2 ^ 32 % 2 ^ 32

/-- Accuracy of `FixedU128`: `10 ^ 18`. -/
def FIXACC : Nat := 10 ^ 18

/-- Modelled from the spec: `FixedU128::saturating_from_integer` of the
external fixed-point kernel (spec §4.6, saturating conversion), on the
underlying integer representation. -/
def fixedSatFromInt (n : Nat) : Nat := min (n * FIXACC) (U128LIM - 1)

/-- Modelled from the spec: `FixedU128::checked_div` of the external
fixed-point kernel, `none` on a zero divisor. -/
def fixedCheckedDiv (a b : Nat) : Option Nat :=
  if b = 0 then none else some (a * FIXACC / b)

/-- Modelled from the spec: multiplication of the external fixed-point
kernel with saturation (spec §4.6: at the fixed-point layer saturating
conversion is used). -/
def fixedSatMul (a b : Nat) : Nat := min (a * b / FIXACC) (U128LIM - 1)

/-- `Module::_update` (lib.rs 366-388): the oracle update.  The first line
takes the current block time modulo `oracleModulus`; since that modulus is
the overflowed `2u32.pow(32)` the call panics unconditionally (see
`oracleModulus`).  The remainder of the translation follows the source
body and is reached by no input. -/
def update (pair : AssetId) (now : Nat) (st : MarketState) :
    Option (MarketState × List MEvent) :=
  if oracleModulus = 0 then none
  else
    let blockTimestamp := now % oracleModulus
    match cSub blockTimestamp st.lastBlockTimestamp with
    | none => none
    | some timeElapsed =>
      let r := st.reserves pair
      if 0 < timeElapsed ∧ r.1 ≠ 0 ∧ r.2 ≠ 0 then
        let reserve0 := fixedSatFromInt r.1
        let reserve1 := fixedSatFromInt r.2
        match fixedCheckedDiv reserve1 reserve0, fixedCheckedDiv reserve0 reserve1 with
        | some q0, some q1 =>
          let price0 := fixedSatMul q0 (fixedSatFromInt timeElapsed)
          let price1 := fixedSatMul q1 (fixedSatFromInt timeElapsed)
          some ({ st with
                    lastAccumulativePrice :=
                      upd1 st.lastAccumulativePrice pair (some (price0, price1)),
                    lastBlockTimestamp := blockTimestamp },
                [MEvent.Sync price0 price1])
        | _, _ => none
      else
        some (st, [])

/-- The body of `swap` (lib.rs 321-342) up to, and excluding, the final
`Self::_update` call: input validation, pair lookup, reserve checks,
pricing, payout transfer, reserve write-back and the `Swap` event.  Note
that the source never collects `amount_in` from the sender; it only adds
it to the stored reserve. -/
def swapCore (sender : AccountId) (tokenFrom : AssetId) (amountIn : Balance)
    (tokenTo : AssetId) (st : MarketState) : Outcome :=
  if amountIn = 0 then .err .InsufficientAmount st
  else
    match st.pairsMap (tokenFrom, tokenTo) with
    | none => .err .InvalidPair st
    | some lpt =>
      let r := st.reserves lpt
      if 0 < r.1 ∧ 0 < r.2 then
        let rio : Balance × Balance := if tokenTo < tokenFrom then (r.2, r.1) else (r.1, r.2)
        match getAmountOut amountIn rio.1 rio.2 with
        | none => .fatal
        | some amountOut =>
          match transferFromSystem tokenTo sender amountOut st with
          | none => .err .AssetLedger st
          | some st1 =>
            match cAdd rio.1 amountIn with
            | none => .fatal
            | some newReserveIn =>
              match cSub rio.2 amountOut with
              | none => .fatal
              | some newReserveOut =>
                let st2 := setReserves tokenFrom tokenTo newReserveIn newReserveOut lpt st1
                .ok st2 [MEvent.SwapEv tokenFrom amountIn tokenTo amountOut]
      else .err .InsufficientLiquidity st

/-- `swap` (lib.rs 320-346): the core body followed by
`Self::_update(&lpt.unwrap())?`, whose panic aborts the dispatch. -/
def swap (sender : AccountId) (tokenFrom : AssetId) (amountIn : Balance)
    (tokenTo : AssetId) (now : Nat) (st : MarketState) : Outcome :=
  match swapCore sender tokenFrom amountIn tokenTo st with
  | .ok st1 evs =>
    match st.pairsMap (tokenFrom, tokenTo) with
    | some lpt =>
      match update lpt now st1 with
      | none => .fatal
      | some (st2, evs2) => .ok st2 (evs ++ evs2)
    | none => .fatal
  | o => o

/-- The body of `mint_liquidity` (lib.rs 240-287) up to, and excluding, the
`Self::_update` call of the subsequent-mint branch.  First the two
deposits are pulled from the sender, then the pair registry is consulted:
on a fresh pair the first-mint branch issues the pool-share asset, writes
reserves and registry, and mints `sqrt(amount0 * amount1) - 1000` shares
(the `checked_sub` panics via `expect` on underflow); on an existing pair
with positive supply the subsequent branch computes
`min(amount0 * S / r.1, amount1 * S / r.2)` shares from the canonically
stored reserves and adds `amount0` to the first and `amount1` to the
second stored component before the canonicalizing write-back.  The guard
`total_supply < 0` of the source is kept as written; it can never hold
for an unsigned balance, so a pool with zero supply falls to the final
arm and fails with `NoneValue`. -/
def mintLiquidityCore (sender : AccountId) (token0 : AssetId) (amount0 : Balance)
    (token1 : AssetId) (amount1 : Balance) (st : MarketState) : Outcome :=
  if token0 = token1 then .err .IdenticalIdentifier st
  else
    match transferToSystem token0 sender amount0 st with
    | none => .err .AssetLedger st
    | some st1 =>
      match transferToSystem token1 sender amount1 st1 with
      | none => .err .AssetLedger st1
      | some st2 =>
        match st2.pairsMap (token0, token1) with
        | none =>
          match cMul amount0 amount1 with
          | none => .fatal
          | some prod =>
            match cSub (mathSqrt prod) 1000 with
            | none => .fatal
            | some lptokenAmount =>
              let st3 := issueFromSystem 0 st2
              let lptokenId := st3.nextAssetId - 1
              let st4 := setReserves token0 token1 amount0 amount1 lptokenId st3
              let st5 := setPair token0 token1 lptokenId st4
              match mintFromSystem lptokenId sender lptokenAmount st5 with
              | none => .err .AssetLedger st5
              | some st6 => .ok st6 [MEvent.CreatePair token0 token1 lptokenId]
        | some lpt =>
          if 0 < st2.totalSupplyMap lpt then
            let totalSupply := st2.totalSupplyMap lpt
            let r := st2.reserves lpt
            match cMul amount0 totalSupply with
            | none => .fatal
            | some l0 =>
              match cDiv l0 r.1 with
              | none => .fatal
              | some left =>
                match cMul amount1 totalSupply with
                | none => .fatal
                | some r0 =>
                  match cDiv r0 r.2 with
                  | none => .fatal
                  | some right =>
                    let lptokenAmount := mathMin left right
                    match cAdd r.1 amount0 with
                    | none => .fatal
                    | some n0 =>
                      match cAdd r.2 amount1 with
                      | none => .fatal
                      | some n1 =>
                        let st3 := setReserves token0 token1 n0 n1 lpt st2
                        match mintFromSystem lpt sender lptokenAmount st3 with
                        | none => .err .AssetLedger st3
                        | some st4 => .ok st4 [MEvent.CreatePair token0 token1 lpt]
          else if st2.totalSupplyMap lpt < 0 then .err .InsufficientLiquidityMinted st2
          else .err .NoneValue st2

/-- `mint_liquidity` (lib.rs 240-287): the core body followed by
`Self::_update(&lpt)?` in the subsequent-mint branch only; the first-mint
branch returns without touching the oracle. -/
def mintLiquidity (sender : AccountId) (token0 : AssetId) (amount0 : Balance)
    (token1 : AssetId) (amount1 : Balance) (now : Nat) (st : MarketState) : Outcome :=
  match mintLiquidityCore sender token0 amount0 token1 amount1 st with
  | .ok st1 evs =>
    match st.pairsMap (token0, token1) with
    | some lpt =>
      match update lpt now st1 with
      | none => .fatal
      | some (st2, evs2) => .ok st2 (evs ++ evs2)
    | none => .ok st1 evs
  | o => o

/-- The body of `burn_liquidity` (lib.rs 290-318) up to, and excluding,
the `Self::_update` call: the pro-rata payouts are computed from the
stored reserves and the pool-share supply with checked arithmetic
(`expect` panics on a zero supply), the
`reward0 > 0 && reward1 > 0` guard fails with
`InsufficientLiquidityBurned`, then `amount` shares are burned, the two
payouts are transferred out in the assets recorded in the `Rewards` map,
the reserves are decremented and written back, and the event is
deposited. -/
def burnLiquidityCore (sender : AccountId) (lpt : AssetId) (amount : Balance)
    (st : MarketState) : Outcome :=
  let r := st.reserves lpt
  let tokens := st.reward lpt
  let totalSupply := st.totalSupplyMap lpt
  match cMul amount r.1 with
  | none => .fatal
  | some m0 =>
    match cDiv m0 totalSupply with
    | none => .fatal
    | some reward0 =>
      match cMul amount r.2 with
      | none => .fatal
      | some m1 =>
        match cDiv m1 totalSupply with
        | none => .fatal
        | some reward1 =>
          if 0 < reward0 ∧ 0 < reward1 then
            match burnFromSystem lpt sender amount st with
            | none => .err .AssetLedger st
            | some st1 =>
              match transferFromSystem tokens.1 sender reward0 st1 with
              | none => .err .AssetLedger st1
              | some st2 =>
                match transferFromSystem tokens.2 sender reward1 st2 with
                | none => .err .AssetLedger st2
                | some st3 =>
                  match cSub r.1 reward0 with
                  | none => .fatal
                  | some n0 =>
                    match cSub r.2 reward1 with
                    | none => .fatal
                    | some n1 =>
                      let st4 := setReserves tokens.1 tokens.2 n0 n1 lpt st3
                      .ok st4 [MEvent.BurnedLiquidity lpt tokens.1 tokens.2]
          else .err .InsufficientLiquidityBurned st

/-- `burn_liquidity` (lib.rs 289-318): the core body followed by
`Self::_update(&lpt)?`. -/
def burnLiquidity (sender : AccountId) (lpt : AssetId) (amount : Balance)
    (now : Nat) (st : MarketState) : Outcome :=
  match burnLiquidityCore sender lpt amount st with
  | .ok st1 evs =>
    match update lpt now st1 with
    | none => .fatal
    | some (st2, evs2) => .ok st2 (evs ++ evs2)
  | o => o

/-- The genesis storage: every map empty, the asset ledger holding no
balances, the next asset id arbitrarily started at 3. -/
def emptyState : MarketState :=
  { lastBlockTimestamp := 0
    lastAccumulativePrice := fun _ => none
    rewardsMap := fun _ => none
    reservesMap := fun _ => none
    pairsMap := fun _ => none
    nextAssetId := 3
    totalSupplyMap := fun _ => 0
    userBalance := fun _ _ => 0
    systemBalance := fun _ => 0 }

/-- Scenario state for the first mint: account 7 holds 1000000 of asset 1
and 4000000 of asset 2, no pool exists. -/
def stMintEx : MarketState :=
  { emptyState with
    userBalance := fun aid who =>
      if aid = 1 ∧ who = 7 then 1000000 else if aid = 2 ∧ who = 7 then 4000000 else 0 }

/-- Scenario state with the pool of assets 1 and 2 (pool-share id 3,
reserves (1000000, 4000000), supply 1999000), as left by the first mint,
with the deposits held in the system balance. -/
def stSwapEx : MarketState :=
  { emptyState with
    pairsMap := fun k => if k = (1, 2) ∨ k = (2, 1) then some 3 else none
    reservesMap := fun k => if k = 3 then some (1000000, 4000000) else none
    totalSupplyMap := fun k => if k = 3 then 1999000 else 0
    systemBalance := fun k => if k = 1 then 1000000 else if k = 2 then 4000000 else 0
    nextAssetId := 4 }

/-- Scenario state for a subsequent mint: the pool of assets 1 and 2
(pool-share id 3) holds canonical reserves (10, 40) with supply 100, and
account 7 holds 20 of asset 1 and 5 of asset 2. -/
def stMint2Ex : MarketState :=
  { emptyState with
    pairsMap := fun k => if k = (1, 2) ∨ k = (2, 1) then some 3 else none
    reservesMap := fun k => if k = 3 then some (10, 40) else none
    totalSupplyMap := fun k => if k = 3 then 100 else 0
    systemBalance := fun k => if k = 1 then 10 else if k = 2 then 40 else 0
    userBalance := fun aid who =>
      if aid = 1 ∧ who = 7 then 20 else if aid = 2 ∧ who = 7 then 5 else 0
    nextAssetId := 4 }

/-- Scenario state for a burn: the pool of assets 1 and 2 (pool-share
id 3) holds canonical reserves (10, 40) with supply 100; account 7 holds
50 pool shares; the `Rewards` map is empty, as it is in every reachable
state; the system is also given a balance of asset 0 so that the
transfers keyed by the defaulted rewards entry can go through. -/
def stBurnEx : MarketState :=
  { emptyState with
    pairsMap := fun k => if k = (1, 2) ∨ k = (2, 1) then some 3 else none
    reservesMap := fun k => if k = 3 then some (10, 40) else none
    totalSupplyMap := fun k => if k = 3 then 100 else 0
    systemBalance := fun k => if k = 0 then 100 else if k = 1 then 10 else if k = 2 then 40 else 0
    userBalance := fun aid who => if aid = 3 ∧ who = 7 then 50 else 0
    nextAssetId := 4 }

/-- Scenario state for a mint onto a pool entry whose pool-share supply is
zero: the registry maps the pair (1, 2) to pool-share id 3 whose total
supply is 0, and account 7 holds enough of both assets to deposit. -/
def stZeroSupplyEx : MarketState :=
  { emptyState with
    pairsMap := fun k => if k = (1, 2) ∨ k = (2, 1) then some 3 else none
    reservesMap := fun k => if k = 3 then some (10, 40) else none
    userBalance := fun aid who =>
      if aid = 1 ∧ who = 7 then 20 else if aid = 2 ∧ who = 7 then 20 else 0
    nextAssetId := 4 }

/-! ### Helper lemmas -/

theorem sqrtIter_eq (fuel : Nat) :
    ∀ guess, guess ≤ fuel → ∀ n, sqrtIter fuel n guess = Nat.sqrt.iter n guess := by
  induction fuel with
  | zero =>
    intro guess hg n
    interval_cases guess
    unfold sqrtIter Nat.sqrt.iter
    simp
  | succ fuel ih =>
    intro guess hg n
    unfold sqrtIter Nat.sqrt.iter
    by_cases h : (guess + n / guess) / 2 < guess
    · simp only [h, if_true, dif_pos h]
      exact ih _ (by omega) n
    · simp [h]

/-- The spec-modelled `math::sqrt` is the exact integer square root. -/
theorem mathSqrt_eq (n : Nat) : mathSqrt n = Nat.sqrt n := by
  unfold mathSqrt Nat.sqrt
  by_cases h : n ≤ 1
  · simp [h]
  · simp only [h, if_false]
    exact sqrtIter_eq n (n / 2) (by omega) n

/-- The modulus expression of the oracle evaluates to zero. -/
theorem oracleModulus_eq_zero : oracleModulus = 0 := by
  simp [oracleModulus]

/-- `_update` panics on every input: the modulus `2u32.pow(32)` has
overflowed to zero, so the `%` panics (and under overflow checks the
`pow` itself already panicked). -/
theorem update_none (pair now : Nat) (st : MarketState) : update pair now st = none := by
  simp [update, oracleModulus_eq_zero]

theorem upd1_same {β : Type} (f : Nat → β) (k : Nat) (v : β) : upd1 f k v k = v := by
  simp [upd1]

theorem upd1_other {β : Type} (f : Nat → β) (k : Nat) (v : β) (x : Nat) (h : x ≠ k) :
    upd1 f k v x = f x := by
  simp [upd1, h]

theorem upd2_same {β : Type} (f : Nat → Nat → β) (k1 k2 : Nat) (v : β) :
    upd2 f k1 k2 v k1 k2 = v := by
  simp [upd2]

theorem upd2_other {β : Type} (f : Nat → Nat → β) (k1 k2 : Nat) (v : β) (x y : Nat)
    (h : ¬(x = k1 ∧ y = k2)) : upd2 f k1 k2 v x y = f x y := by
  simp only [upd2, if_neg h]

/-- The reserve entry written by `_set_reserves` under its own key. -/
theorem setReserves_same (t0 t1 : AssetId) (a0 a1 : Balance) (lpt : AssetId)
    (st : MarketState) :
    (setReserves t0 t1 a0 a1 lpt st).reservesMap lpt =
      some (if t1 < t0 then (a1, a0) else (a0, a1)) := by
  unfold setReserves
  by_cases h : t1 < t0 <;> simp [h, upd1_same]

/-- `_set_reserves` touches only the reserve store. -/
theorem setReserves_proj (t0 t1 : AssetId) (a0 a1 : Balance) (lpt : AssetId)
    (st : MarketState) :
    (setReserves t0 t1 a0 a1 lpt st).pairsMap = st.pairsMap ∧
    (setReserves t0 t1 a0 a1 lpt st).rewardsMap = st.rewardsMap ∧
    (setReserves t0 t1 a0 a1 lpt st).totalSupplyMap = st.totalSupplyMap ∧
    (setReserves t0 t1 a0 a1 lpt st).userBalance = st.userBalance ∧
    (setReserves t0 t1 a0 a1 lpt st).systemBalance = st.systemBalance ∧
    (setReserves t0 t1 a0 a1 lpt st).nextAssetId = st.nextAssetId := by
  unfold setReserves
  by_cases h : t1 < t0 <;> simp [h]

/-- `_get_amount_out` under the four intermediate checks and a positive
denominator: it returns exactly the floored quotient of the claim. -/
theorem getAmountOut_eq (a ri ro : Nat) (h1 : a * 997 < U128LIM)
    (h2 : a * 997 * ro < U128LIM) (h3 : ri * 1000 < U128LIM)
    (h4 : ri * 1000 + a * 997 < U128LIM) (h5 : 0 < ri * 1000 + a * 997) :
    getAmountOut a ri ro = some (a * 997 * ro / (ri * 1000 + a * 997)) := by
  unfold getAmountOut cMul cAdd
  simp only [h1, if_true, h2, if_true, h3, if_true, h4, if_true]
  simp [Nat.pos_iff_ne_zero.mp h5]

theorem getAmountOut_none1 (a ri ro : Nat) (h1 : ¬ a * 997 < U128LIM) :
    getAmountOut a ri ro = none := by
  unfold getAmountOut cMul; simp [h1]

theorem getAmountOut_none2 (a ri ro : Nat) (h2 : ¬ a * 997 * ro < U128LIM) :
    getAmountOut a ri ro = none := by
  unfold getAmountOut cMul
  by_cases h1 : a * 997 < U128LIM
  · simp [h1, h2]
  · simp [h1]

theorem getAmountOut_none3 (a ri ro : Nat) (h3 : ¬ ri * 1000 < U128LIM) :
    getAmountOut a ri ro = none := by
  unfold getAmountOut cMul
  by_cases h1 : a * 997 < U128LIM
  · by_cases h2 : a * 997 * ro < U128LIM
    · simp [h1, h2, h3]
    · simp [h1, h2]
  · simp [h1]

theorem getAmountOut_none4 (a ri ro : Nat) (h4 : ¬ ri * 1000 + a * 997 < U128LIM) :
    getAmountOut a ri ro = none := by
  unfold getAmountOut cMul cAdd
  by_cases h1 : a * 997 < U128LIM
  · by_cases h2 : a * 997 * ro < U128LIM
    · by_cases h3 : ri * 1000 < U128LIM
      · simp [h1, h2, h3, h4]
      · simp [h1, h2, h3]
    · simp [h1, h2]
  · simp [h1]

theorem getAmountOut_none5 (a ri ro : Nat) (h5 : ri * 1000 + a * 997 = 0) :
    getAmountOut a ri ro = none := by
  unfold getAmountOut cMul cAdd
  have h1 : a * 997 = 0 := by omega
  have h3 : ri * 1000 = 0 := by omega
  simp [h1, h3, h5, U128LIM]

/-- Whenever `_get_amount_out` returns a value, it is the claimed floored
quotient. -/
theorem getAmountOut_some (a ri ro out : Nat) (h : getAmountOut a ri ro = some out) :
    out = a * 997 * ro / (ri * 1000 + a * 997) := by
  by_cases h1 : a * 997 < U128LIM
  · by_cases h2 : a * 997 * ro < U128LIM
    · by_cases h3 : ri * 1000 < U128LIM
      · by_cases h4 : ri * 1000 + a * 997 < U128LIM
        · by_cases h5 : ri * 1000 + a * 997 = 0
          · rw [getAmountOut_none5 a ri ro h5] at h; exact absurd h (by simp)
          · rw [getAmountOut_eq a ri ro h1 h2 h3 h4 (Nat.pos_of_ne_zero h5)] at h
            simpa using h.symm
        · rw [getAmountOut_none4 a ri ro h4] at h; exact absurd h (by simp)
      · rw [getAmountOut_none3 a ri ro h3] at h; exact absurd h (by simp)
    · rw [getAmountOut_none2 a ri ro h2] at h; exact absurd h (by simp)
  · rw [getAmountOut_none1 a ri ro h1] at h; exact absurd h (by simp)

/-- The payout of `_get_amount_out` is strictly below the output-side
reserve whenever the input amount and both reserves are positive. -/
theorem getAmountOut_lt (a ri ro out : Nat) (ha : 0 < a) (hri : 0 < ri) (hro : 0 < ro)
    (h : getAmountOut a ri ro = some out) : out < ro := by
  have hout := getAmountOut_some a ri ro out h
  have hD : 0 < ri * 1000 + a * 997 := by omega
  have hdiv : a * 997 * ro / (ri * 1000 + a * 997) < ro :=
    (Nat.div_lt_iff_lt_mul hD).mpr (by nlinarith)
  omega

theorem k_bound_core (a ri q d : Nat) (hq2 : (ri + a) * q ≤ a * (q + d)) :
    ri * (q + d) ≤ (ri + a) * d := by nlinarith

theorem k_key (a ri ro : Nat) (hri : 0 < ri) :
    (ri + a) * (a * 997 * ro / (ri * 1000 + a * 997)) ≤ a * ro := by
  have hDpos : 0 < ri * 1000 + a * 997 := by omega
  refine Nat.le_of_mul_le_mul_left ?_ hDpos
  have h1 : (a * 997 * ro / (ri * 1000 + a * 997)) * (ri * 1000 + a * 997) ≤ a * 997 * ro :=
    Nat.div_mul_le_self _ _
  have h2 : (ri * 1000 + a * 997) * ((ri + a) * (a * 997 * ro / (ri * 1000 + a * 997)))
      = (ri + a) * ((a * 997 * ro / (ri * 1000 + a * 997)) * (ri * 1000 + a * 997)) := by ring
  have h3 : (ri + a) * ((a * 997 * ro / (ri * 1000 + a * 997)) * (ri * 1000 + a * 997))
      ≤ (ri + a) * (a * 997 * ro) := Nat.mul_le_mul_left _ h1
  have h4 : (ri + a) * (a * 997 * ro) = ((ri + a) * 997) * (a * ro) := by ring
  have h5 : (ri + a) * 997 ≤ ri * 1000 + a * 997 := by omega
  have h6 : ((ri + a) * 997) * (a * ro) ≤ (ri * 1000 + a * 997) * (a * ro) :=
    Nat.mul_le_mul_right _ h5
  omega

theorem k_q_le (a ri ro : Nat) (hri : 0 < ri) :
    a * 997 * ro / (ri * 1000 + a * 997) ≤ ro := by
  have hDpos : 0 < ri * 1000 + a * 997 := by omega
  have h1 : a * 997 * ro ≤ (ri * 1000 + a * 997) * ro :=
    Nat.mul_le_mul_right ro (by omega)
  have h2 : a * 997 * ro / (ri * 1000 + a * 997)
      ≤ (ri * 1000 + a * 997) * ro / (ri * 1000 + a * 997) :=
    Nat.div_le_div_right h1
  have h3 : (ri * 1000 + a * 997) * ro / (ri * 1000 + a * 997) = ro :=
    Nat.mul_div_cancel_left ro hDpos
  omega

/-- Arithmetic core of the constant-product bound: adding the input to one
reserve and removing the priced output from the other never shrinks the
product of the reserves. -/
theorem k_bound_aux (a ri ro : Nat) (hri : 0 < ri) :
    ri * ro ≤ (ri + a) * (ro - a * 997 * ro / (ri * 1000 + a * 997)) := by
  have hq1 := k_q_le a ri ro hri
  have hq2 := k_key a ri ro hri
  have hd : a * 997 * ro / (ri * 1000 + a * 997)
      + (ro - a * 997 * ro / (ri * 1000 + a * 997)) = ro := by omega
  have hcore := k_bound_core a ri (a * 997 * ro / (ri * 1000 + a * 997))
      (ro - a * 997 * ro / (ri * 1000 + a * 997)) (by rw [hd]; exact hq2)
  rw [hd] at hcore
  exact hcore

theorem swapCore_ok_char (sender f aIn t : Nat) (st st' : MarketState) (evs : List MEvent)
    (h : swapCore sender f aIn t st = .ok st' evs) :
    ∃ lpt out st1,
      st.pairsMap (f, t) = some lpt ∧ aIn ≠ 0 ∧
      0 < (st.reserves lpt).1 ∧ 0 < (st.reserves lpt).2 ∧
      getAmountOut aIn (if t < f then (st.reserves lpt).2 else (st.reserves lpt).1)
        (if t < f then (st.reserves lpt).1 else (st.reserves lpt).2) = some out ∧
      transferFromSystem t sender out st = some st1 ∧
      out ≤ (if t < f then (st.reserves lpt).1 else (st.reserves lpt).2) ∧
      st' = setReserves f t
        ((if t < f then (st.reserves lpt).2 else (st.reserves lpt).1) + aIn)
        ((if t < f then (st.reserves lpt).1 else (st.reserves lpt).2) - out) lpt st1 := by
  unfold swapCore at h
  split at h
  · exact absurd h (by simp)
  next h0 =>
  split at h
  next hpair => exact absurd h (by simp)
  next lpt hpair =>
  split at h
  case _ hr =>
    dsimp only at h
    split at h
    next hpos =>
      split at h
      next hg => exact absurd h (by simp)
      next out hg =>
      split at h
      next ht => exact absurd h (by simp)
      next st1 ht =>
      split at h
      next hadd => exact absurd h (by simp)
      next newIn hadd =>
      split at h
      next hsub => exact absurd h (by simp)
      next newOut hsub =>
      have hin : newIn = (st.reserves lpt).2 + aIn := by
        unfold cAdd at hadd
        split at hadd
        · exact (Option.some.injEq _ _).mp hadd.symm
        · exact absurd hadd (by simp)
      have hle : out ≤ (st.reserves lpt).1 ∧ newOut = (st.reserves lpt).1 - out := by
        unfold cSub at hsub
        split at hsub
        next hc => exact ⟨hc, ((Option.some.injEq _ _).mp hsub.symm)⟩
        · exact absurd hsub (by simp)
      refine ⟨lpt, out, st1, hpair, h0, hpos.1, hpos.2, ?_, ht, ?_, ?_⟩
      · rw [if_pos hr, if_pos hr]; exact hg
      · rw [if_pos hr]; exact hle.1
      · rw [if_pos hr, if_pos hr, ← hin, ← hle.2]
        have := h
        injection this with h1 h2
        exact h1.symm
    next hpos => exact absurd h (by simp)
  case _ hr =>
    dsimp only at h
    split at h
    next hpos =>
      split at h
      next hg => exact absurd h (by simp)
      next out hg =>
      split at h
      next ht => exact absurd h (by simp)
      next st1 ht =>
      split at h
      next hadd => exact absurd h (by simp)
      next newIn hadd =>
      split at h
      next hsub => exact absurd h (by simp)
      next newOut hsub =>
      have hin : newIn = (st.reserves lpt).1 + aIn := by
        unfold cAdd at hadd
        split at hadd
        · exact (Option.some.injEq _ _).mp hadd.symm
        · exact absurd hadd (by simp)
      have hle : out ≤ (st.reserves lpt).2 ∧ newOut = (st.reserves lpt).2 - out := by
        unfold cSub at hsub
        split at hsub
        next hc => exact ⟨hc, ((Option.some.injEq _ _).mp hsub.symm)⟩
        · exact absurd hsub (by simp)
      refine ⟨lpt, out, st1, hpair, h0, hpos.1, hpos.2, ?_, ht, ?_, ?_⟩
      · rw [if_neg hr, if_neg hr]; exact hg
      · rw [if_neg hr]; exact hle.1
      · rw [if_neg hr, if_neg hr, ← hin, ← hle.2]
        have := h
        injection this with h1 h2
        exact h1.symm
    next hpos => exact absurd h (by simp)

theorem isOk_exists (o : Outcome) (h : o.isOk = true) : ∃ st evs, o = .ok st evs := by
  cases o with
  | ok st evs => exact ⟨st, evs, rfl⟩
  | err e st => simp [Outcome.isOk] at h
  | fatal => simp [Outcome.isOk] at h

theorem mul_fee_div_le (x : Nat) : x * (1000 - 3) / 1000 ≤ x := by
  have h1 : x * (1000 - 3) ≤ x * 1000 := Nat.mul_le_mul_left x (by omega)
  have h2 : x * (1000 - 3) / 1000 ≤ x * 1000 / 1000 := Nat.div_le_div_right h1
  have h3 : x * 1000 / 1000 = x := Nat.mul_div_cancel x (by norm_num)
  omega

theorem reserves_of_map (st : MarketState) (k : AssetId) (p : Balance × Balance)
    (h : st.reservesMap k = some p) : st.reserves k = p := by
  unfold MarketState.reserves
  rw [h]
  rfl

theorem swapCore_k (sender f aIn t : Nat) (st : MarketState) (lpt : AssetId)
    (hlpt : st.pairsMap (f, t) = some lpt)
    (hok : (swapCore sender f aIn t st).isOk = true) :
    (st.reserves lpt).1 * (st.reserves lpt).2 * (1000 - 3) / 1000 ≤
      (((swapCore sender f aIn t st).stateD st).reserves lpt).1 *
      (((swapCore sender f aIn t st).stateD st).reserves lpt).2 := by
  obtain ⟨st2, evs, hco⟩ := isOk_exists _ hok
  obtain ⟨lpt2, out, st1, hpair2, h0, hp1, hp2, hg, ht, hle, hst⟩ :=
    swapCore_ok_char sender f aIn t st st2 evs hco
  have hlpt2 : lpt = lpt2 := by
    rw [hlpt] at hpair2
    exact (Option.some.injEq _ _).mp hpair2
  rw [hco, hlpt2]
  have hres : (Outcome.ok st2 evs).stateD st = st2 := rfl
  rw [hres, hst]
  have hnew := setReserves_same f t
      ((if t < f then (st.reserves lpt2).2 else (st.reserves lpt2).1) + aIn)
      ((if t < f then (st.reserves lpt2).1 else (st.reserves lpt2).2) - out) lpt2 st1
  by_cases hr : t < f
  · rw [if_pos hr] at hg hle hnew
    rw [if_pos hr] at hg hnew
    have hq := getAmountOut_some _ _ _ _ hg
    have hkb := k_bound_aux aIn (st.reserves lpt2).2 (st.reserves lpt2).1 hp2
    rw [← hq] at hkb
    have hrw := reserves_of_map _ _ _ hnew
    rw [if_pos hr] at hrw
    rw [if_pos hr, if_pos hr, hrw]
    have hle2 := mul_fee_div_le ((st.reserves lpt2).1 * (st.reserves lpt2).2)
    calc (st.reserves lpt2).1 * (st.reserves lpt2).2 * (1000 - 3) / 1000
        ≤ (st.reserves lpt2).1 * (st.reserves lpt2).2 := hle2
      _ = (st.reserves lpt2).2 * (st.reserves lpt2).1 := Nat.mul_comm _ _
      _ ≤ ((st.reserves lpt2).2 + aIn) * ((st.reserves lpt2).1 - out) := hkb
      _ = ((st.reserves lpt2).1 - out) * ((st.reserves lpt2).2 + aIn) := Nat.mul_comm _ _
  · rw [if_neg hr] at hg hle hnew
    rw [if_neg hr] at hg hnew
    have hq := getAmountOut_some _ _ _ _ hg
    have hkb := k_bound_aux aIn (st.reserves lpt2).1 (st.reserves lpt2).2 hp1
    rw [← hq] at hkb
    have hrw := reserves_of_map _ _ _ hnew
    rw [if_neg hr] at hrw
    rw [if_neg hr, if_neg hr, hrw]
    have hle2 := mul_fee_div_le ((st.reserves lpt2).1 * (st.reserves lpt2).2)
    calc (st.reserves lpt2).1 * (st.reserves lpt2).2 * (1000 - 3) / 1000
        ≤ (st.reserves lpt2).1 * (st.reserves lpt2).2 := hle2
      _ ≤ ((st.reserves lpt2).1 + aIn) * ((st.reserves lpt2).2 - out) := hkb

theorem swap_never_ok (sender f aIn t now : Nat) (st : MarketState) :
    (swap sender f aIn t now st).isOk = false := by
  unfold swap
  split
  next st1 evs hco =>
    split
    next lpt hl =>
      rw [update_none]
      rfl
    next hl => rfl
  next x h2 =>
    cases hsc : swapCore sender f aIn t st with
    | ok st1 evs => exact absurd hsc (h2 st1 evs)
    | err e st1 => rfl
    | fatal => rfl

theorem burn_never_ok (sender lpt amount now : Nat) (st : MarketState) :
    (burnLiquidity sender lpt amount now st).isOk = false := by
  unfold burnLiquidity
  split
  next st1 evs hco =>
    rw [update_none]
    rfl
  next x h2 =>
    cases hsc : burnLiquidityCore sender lpt amount st with
    | ok st1 evs => exact absurd hsc (h2 st1 evs)
    | err e st1 => rfl
    | fatal => rfl

theorem mint_sub_never_ok (sender t0 a0 t1 a1 now : Nat) (st : MarketState) (lpt : AssetId)
    (hlpt : st.pairsMap (t0, t1) = some lpt) :
    (mintLiquidity sender t0 a0 t1 a1 now st).isOk = false := by
  unfold mintLiquidity
  split
  next st1 evs hco =>
    rw [hlpt]
    simp [update_none, Outcome.isOk]
  next x h2 =>
    cases hsc : mintLiquidityCore sender t0 a0 t1 a1 st with
    | ok st1 evs => exact absurd hsc (h2 st1 evs)
    | err e st1 => rfl
    | fatal => rfl


theorem transferToSystem_proj (aid who amt : Nat) (st st' : MarketState)
    (h : transferToSystem aid who amt st = some st') :
    st'.pairsMap = st.pairsMap ∧ st'.reservesMap = st.reservesMap ∧
    st'.rewardsMap = st.rewardsMap ∧ st'.totalSupplyMap = st.totalSupplyMap ∧
    st'.nextAssetId = st.nextAssetId ∧ st'.lastBlockTimestamp = st.lastBlockTimestamp ∧
    st'.lastAccumulativePrice = st.lastAccumulativePrice ∧
    st'.systemBalance = upd1 st.systemBalance aid (st.systemBalance aid + amt) ∧
    st'.userBalance = upd2 st.userBalance aid who (st.userBalance aid who - amt) := by
  unfold transferToSystem at h
  split at h
  · injection h with h'
    subst h'
    exact ⟨rfl, rfl, rfl, rfl, rfl, rfl, rfl, rfl, rfl⟩
  · exact absurd h (by simp)

theorem transferFromSystem_proj (aid who amt : Nat) (st st' : MarketState)
    (h : transferFromSystem aid who amt st = some st') :
    st'.pairsMap = st.pairsMap ∧ st'.reservesMap = st.reservesMap ∧
    st'.rewardsMap = st.rewardsMap ∧ st'.totalSupplyMap = st.totalSupplyMap ∧
    st'.nextAssetId = st.nextAssetId ∧ st'.lastBlockTimestamp = st.lastBlockTimestamp ∧
    st'.lastAccumulativePrice = st.lastAccumulativePrice ∧
    st'.systemBalance = upd1 st.systemBalance aid (st.systemBalance aid - amt) ∧
    st'.userBalance = upd2 st.userBalance aid who (st.userBalance aid who + amt) := by
  unfold transferFromSystem at h
  split at h
  · injection h with h'
    subst h'
    exact ⟨rfl, rfl, rfl, rfl, rfl, rfl, rfl, rfl, rfl⟩
  · exact absurd h (by simp)

theorem mintFromSystem_proj (aid who amt : Nat) (st st' : MarketState)
    (h : mintFromSystem aid who amt st = some st') :
    st'.pairsMap = st.pairsMap ∧ st'.reservesMap = st.reservesMap ∧
    st'.rewardsMap = st.rewardsMap ∧
    st'.totalSupplyMap = upd1 st.totalSupplyMap aid (st.totalSupplyMap aid + amt) ∧
    st'.nextAssetId = st.nextAssetId ∧ st'.lastBlockTimestamp = st.lastBlockTimestamp ∧
    st'.systemBalance = st.systemBalance ∧
    st'.userBalance = upd2 st.userBalance aid who (st.userBalance aid who + amt) ∧
    st.totalSupplyMap aid + amt < U128LIM := by
  unfold mintFromSystem cAdd at h
  split at h
  next heq => exact absurd h (by simp)
  next v heq =>
    split at heq
    next hlt =>
      injection heq with heq'
      subst heq'
      injection h with h'
      subst h'
      exact ⟨rfl, rfl, rfl, rfl, rfl, rfl, rfl, rfl, hlt⟩
    next hlt => exact absurd heq (by simp)

theorem burnFromSystem_proj (aid who amt : Nat) (st st' : MarketState)
    (h : burnFromSystem aid who amt st = some st') :
    st'.pairsMap = st.pairsMap ∧ st'.reservesMap = st.reservesMap ∧
    st'.rewardsMap = st.rewardsMap ∧
    st'.totalSupplyMap = upd1 st.totalSupplyMap aid (st.totalSupplyMap aid - amt) ∧
    st'.nextAssetId = st.nextAssetId ∧ st'.lastBlockTimestamp = st.lastBlockTimestamp ∧
    st'.systemBalance = st.systemBalance ∧
    st'.userBalance = upd2 st.userBalance aid who (st.userBalance aid who - amt) ∧
    amt ≤ st.userBalance aid who := by
  unfold burnFromSystem at h
  split at h
  next hle =>
    injection h with h'
    subst h'
    exact ⟨rfl, rfl, rfl, rfl, rfl, rfl, rfl, rfl, hle⟩
  · exact absurd h (by simp)

theorem setPair_rewards (a b c : Nat) (stx : MarketState) :
    (setPair a b c stx).rewardsMap = stx.rewardsMap := rfl

theorem issue_rewards (i : Nat) (stx : MarketState) :
    (issueFromSystem i stx).rewardsMap = stx.rewardsMap := rfl

theorem setReserves_rewards (t0 t1 a0 a1 lpt : Nat) (stx : MarketState) :
    (setReserves t0 t1 a0 a1 lpt stx).rewardsMap = stx.rewardsMap :=
  (setReserves_proj t0 t1 a0 a1 lpt stx).2.1

theorem mintCore_rewards (sender t0 a0 t1 a1 : Nat) (st : MarketState) :
    ((mintLiquidityCore sender t0 a0 t1 a1 st).stateD st).rewardsMap = st.rewardsMap := by
  unfold mintLiquidityCore
  split
  · rfl
  next hne =>
  split
  next h1 => rfl
  next st1 h1 =>
  have e1 := (transferToSystem_proj _ _ _ _ _ h1).2.2.1
  split
  next h2 => exact e1
  next st2 h2 =>
  have e2 := (transferToSystem_proj _ _ _ _ _ h2).2.2.1
  split
  next hp =>
    dsimp only
    split
    next => rfl
    next prod hprod =>
    split
    next => rfl
    next shares hsh =>
    split
    next hm =>
      rw [Outcome.stateD, setPair_rewards, setReserves_rewards, issue_rewards, e2, e1]
    next st6 hm =>
      have e6 := (mintFromSystem_proj _ _ _ _ _ hm).2.2.1
      rw [Outcome.stateD, e6, setPair_rewards, setReserves_rewards, issue_rewards, e2, e1]
  next lpt hp =>
    split
    next hpos =>
      dsimp only
      split
      next => rfl
      next l0 hl0 =>
      split
      next => rfl
      next left hleft =>
      split
      next => rfl
      next r0 hr0 =>
      split
      next => rfl
      next right hright =>
      split
      next => rfl
      next n0 hn0 =>
      split
      next => rfl
      next n1 hn1 =>
      split
      next hm =>
        rw [Outcome.stateD, setReserves_rewards, e2, e1]
      next st4 hm =>
        have e4 := (mintFromSystem_proj _ _ _ _ _ hm).2.2.1
        rw [Outcome.stateD, e4, setReserves_rewards, e2, e1]
    next hpos =>
      split
      next => rw [Outcome.stateD, e2, e1]
      next => rw [Outcome.stateD, e2, e1]

theorem burnCore_rewards (sender lpt amount : Nat) (st : MarketState) :
    ((burnLiquidityCore sender lpt amount st).stateD st).rewardsMap = st.rewardsMap := by
  unfold burnLiquidityCore
  dsimp only
  split
  next => rfl
  next m0 hm0 =>
  split
  next => rfl
  next reward0 hr0 =>
  split
  next => rfl
  next m1 hm1 =>
  split
  next => rfl
  next reward1 hr1 =>
  split
  next hpos =>
    split
    next => rfl
    next st1 h1 =>
    have e1 := (burnFromSystem_proj _ _ _ _ _ h1).2.2.1
    split
    next => exact e1
    next st2 h2 =>
    have e2 := (transferFromSystem_proj _ _ _ _ _ h2).2.2.1
    split
    next => rw [Outcome.stateD, e2, e1]
    next st3 h3 =>
    have e3 := (transferFromSystem_proj _ _ _ _ _ h3).2.2.1
    split
    next => rfl
    next n0 hn0 =>
    split
    next => rfl
    next n1 hn1 =>
    rw [Outcome.stateD, setReserves_rewards, e3, e2, e1]
  next hpos => rfl

theorem swapCore_rewards (sender f aIn t : Nat) (st : MarketState) :
    ((swapCore sender f aIn t st).stateD st).rewardsMap = st.rewardsMap := by
  unfold swapCore
  split
  next => rfl
  next h0 =>
  split
  next => rfl
  next lpt hp =>
  split
  next hr =>
    dsimp only
    split
    next hpos =>
      split
      next => rfl
      next out hg =>
      split
      next => rfl
      next st1 h1 =>
      have e1 := (transferFromSystem_proj _ _ _ _ _ h1).2.2.1
      split
      next => rfl
      next nIn hadd =>
      split
      next => rfl
      next nOut hsub =>
      rw [Outcome.stateD, setReserves_rewards, e1]
    next hpos => rfl
  next hr =>
    dsimp only
    split
    next hpos =>
      split
      next => rfl
      next out hg =>
      split
      next => rfl
      next st1 h1 =>
      have e1 := (transferFromSystem_proj _ _ _ _ _ h1).2.2.1
      split
      next => rfl
      next nIn hadd =>
      split
      next => rfl
      next nOut hsub =>
      rw [Outcome.stateD, setReserves_rewards, e1]
    next hpos => rfl

theorem mint_rewards (sender t0 a0 t1 a1 now : Nat) (st : MarketState) :
    ((mintLiquidity sender t0 a0 t1 a1 now st).stateD st).rewardsMap = st.rewardsMap := by
  unfold mintLiquidity
  split
  next st1 evs hco =>
    split
    next lpt hl =>
      rw [update_none]
      rfl
    next hl =>
      have hx := mintCore_rewards sender t0 a0 t1 a1 st
      rw [hco] at hx
      exact hx
  next x h2 => exact mintCore_rewards sender t0 a0 t1 a1 st

theorem burn_rewards (sender lpt amount now : Nat) (st : MarketState) :
    ((burnLiquidity sender lpt amount now st).stateD st).rewardsMap = st.rewardsMap := by
  unfold burnLiquidity
  split
  next st1 evs hco =>
    rw [update_none]
    rfl
  next x h2 => exact burnCore_rewards sender lpt amount st

theorem swap_rewards (sender f aIn t now : Nat) (st : MarketState) :
    ((swap sender f aIn t now st).stateD st).rewardsMap = st.rewardsMap := by
  unfold swap
  split
  next st1 evs hco =>
    split
    next lpt hl =>
      rw [update_none]
      rfl
    next hl => rfl
  next x h2 => exact swapCore_rewards sender f aIn t st

theorem swapCore_pos (sender f aIn t : Nat) (st : MarketState) (lpt : AssetId)
    (hlpt : st.pairsMap (f, t) = some lpt)
    (hok : (swapCore sender f aIn t st).isOk = true) :
    0 < (((swapCore sender f aIn t st).stateD st).reserves lpt).1 ∧
    0 < (((swapCore sender f aIn t st).stateD st).reserves lpt).2 := by
  obtain ⟨st2, evs, hco⟩ := isOk_exists _ hok
  obtain ⟨lpt2, out, st1, hpair2, h0, hp1, hp2, hg, ht, hle, hst⟩ :=
    swapCore_ok_char sender f aIn t st st2 evs hco
  have hlpt2 : lpt = lpt2 := by
    rw [hlpt] at hpair2
    exact (Option.some.injEq _ _).mp hpair2
  rw [hco, hlpt2]
  have hres : (Outcome.ok st2 evs).stateD st = st2 := rfl
  rw [hres, hst]
  have hnew := reserves_of_map _ _ _ (setReserves_same f t
      ((if t < f then (st.reserves lpt2).2 else (st.reserves lpt2).1) + aIn)
      ((if t < f then (st.reserves lpt2).1 else (st.reserves lpt2).2) - out) lpt2 st1)
  have haIn : 0 < aIn := Nat.pos_of_ne_zero h0
  by_cases hr : t < f
  · rw [if_pos hr] at hg hle hnew
    rw [if_pos hr] at hg hnew
    have hlt := getAmountOut_lt aIn (st.reserves lpt2).2 (st.reserves lpt2).1 out haIn hp2 hp1 hg
    simp only [if_pos hr]
    rw [hnew]
    simp only [if_pos hr]
    show 0 < (st.reserves lpt2).1 - out ∧ 0 < (st.reserves lpt2).2 + aIn
    exact ⟨Nat.sub_pos_of_lt hlt, Nat.add_pos_left hp2 aIn⟩
  · rw [if_neg hr] at hg hle hnew
    rw [if_neg hr] at hg hnew
    have hlt := getAmountOut_lt aIn (st.reserves lpt2).1 (st.reserves lpt2).2 out haIn hp1 hp2 hg
    simp only [if_neg hr]
    rw [hnew]
    simp only [if_neg hr]
    show 0 < (st.reserves lpt2).1 + aIn ∧ 0 < (st.reserves lpt2).2 - out
    exact ⟨Nat.add_pos_left hp1 aIn, Nat.sub_pos_of_lt hlt⟩


theorem mintCore_first_ok (sender t0 a0 t1 a1 : Nat) (st : MarketState)
    (hne : t0 ≠ t1) (hpair : st.pairsMap (t0, t1) = none)
    (hov : a0 * a1 < U128LIM) (hsq : 1000 ≤ mathSqrt (a0 * a1))
    (h0 : a0 ≤ st.userBalance t0 sender) (h1 : a1 ≤ st.userBalance t1 sender)
    (ht0 : t0 ≠ st.nextAssetId) (ht1 : t1 ≠ st.nextAssetId) :
    (mintLiquidityCore sender t0 a0 t1 a1 st).isOk = true ∧
    ((mintLiquidityCore sender t0 a0 t1 a1 st).stateD st).userBalance st.nextAssetId sender
      = st.userBalance st.nextAssetId sender + (mathSqrt (a0 * a1) - 1000) ∧
    ((mintLiquidityCore sender t0 a0 t1 a1 st).stateD st).totalSupplyMap st.nextAssetId
      = mathSqrt (a0 * a1) - 1000 ∧
    ((mintLiquidityCore sender t0 a0 t1 a1 st).stateD st).reservesMap st.nextAssetId
      = some (if t1 < t0 then (a1, a0) else (a0, a1)) := by
  have hsb : mathSqrt (a0 * a1) - 1000 < U128LIM := by
    have := mathSqrt_eq (a0 * a1)
    have := Nat.sqrt_le_self (a0 * a1)
    omega
  simp [mintLiquidityCore, transferToSystem, cMul, cSub, issueFromSystem, setReserves,
    setPair, mintFromSystem, cAdd, upd1, upd2, updP, hpair, if_neg hne, if_pos h0,
    Ne.symm hne, hov, hsq, h1, hsb, Outcome.isOk, Outcome.stateD, ht0, ht1, Ne.symm ht0,
    Ne.symm ht1, apply_ite]
  by_cases hlt : t1 < t0 <;> simp [hlt, upd1]

theorem mintCore_first_fatal (sender t0 a0 t1 a1 : Nat) (st : MarketState)
    (hne : t0 ≠ t1) (hpair : st.pairsMap (t0, t1) = none)
    (hov : a0 * a1 < U128LIM) (hsq : mathSqrt (a0 * a1) < 1000)
    (h0 : a0 ≤ st.userBalance t0 sender) (h1 : a1 ≤ st.userBalance t1 sender) :
    mintLiquidityCore sender t0 a0 t1 a1 st = .fatal := by
  have hsq' : ¬ 1000 ≤ mathSqrt (a0 * a1) := by omega
  simp [mintLiquidityCore, transferToSystem, cMul, cSub, upd1, upd2, hpair, if_neg hne,
    if_pos h0, Ne.symm hne, hov, h1, hsq']

theorem mint_first_eq_core (sender t0 a0 t1 a1 now : Nat) (st : MarketState)
    (hpair : st.pairsMap (t0, t1) = none) :
    mintLiquidity sender t0 a0 t1 a1 now st = mintLiquidityCore sender t0 a0 t1 a1 st := by
  unfold mintLiquidity
  split
  next st1 evs hco =>
    rw [hpair, hco]
  next x h2 => rfl

theorem mint_zero_supply (sender t0 a0 t1 a1 now : Nat) (st : MarketState) (lpt : AssetId)
    (hne : t0 ≠ t1) (hpair : st.pairsMap (t0, t1) = some lpt)
    (hS : st.totalSupplyMap lpt = 0)
    (h0 : a0 ≤ st.userBalance t0 sender) (h1 : a1 ≤ st.userBalance t1 sender) :
    (mintLiquidity sender t0 a0 t1 a1 now st).errOf = some .NoneValue ∧
    ((mintLiquidity sender t0 a0 t1 a1 now st).stateD st).pairsMap = st.pairsMap ∧
    ((mintLiquidity sender t0 a0 t1 a1 now st).stateD st).reservesMap = st.reservesMap ∧
    ((mintLiquidity sender t0 a0 t1 a1 now st).stateD st).rewardsMap = st.rewardsMap ∧
    ((mintLiquidity sender t0 a0 t1 a1 now st).stateD st).totalSupplyMap = st.totalSupplyMap := by
  have hcore : mintLiquidityCore sender t0 a0 t1 a1 st =
      .err .NoneValue { st with
        userBalance := upd2 (upd2 st.userBalance t0 sender (st.userBalance t0 sender - a0))
          t1 sender (st.userBalance t1 sender - a1),
        systemBalance := upd1 (upd1 st.systemBalance t0 (st.systemBalance t0 + a0))
          t1 (st.systemBalance t1 + a1) } := by
    simp [mintLiquidityCore, transferToSystem, upd1, upd2, hpair, if_neg hne, if_pos h0,
      Ne.symm hne, h1, hS]
  have hfull : mintLiquidity sender t0 a0 t1 a1 now st =
      mintLiquidityCore sender t0 a0 t1 a1 st := by
    unfold mintLiquidity
    split
    next st1 evs hco =>
      rw [hcore] at hco
      exact absurd hco (by simp)
    next x h2 => rfl
  rw [hfull, hcore]
  exact ⟨rfl, rfl, rfl, rfl, rfl⟩

theorem burnCore_ilb (sender lpt amount : Nat) (st : MarketState)
    (hm0 : amount * (st.reserves lpt).1 < U128LIM)
    (hm1 : amount * (st.reserves lpt).2 < U128LIM)
    (hS : 0 < st.totalSupplyMap lpt)
    (hz : amount * (st.reserves lpt).1 / st.totalSupplyMap lpt = 0 ∨
          amount * (st.reserves lpt).2 / st.totalSupplyMap lpt = 0) :
    burnLiquidityCore sender lpt amount st = .err .InsufficientLiquidityBurned st := by
  have hS' : st.totalSupplyMap lpt ≠ 0 := Nat.pos_iff_ne_zero.mp hS
  have hneg : ¬(0 < amount * (st.reserves lpt).1 / st.totalSupplyMap lpt ∧
      0 < amount * (st.reserves lpt).2 / st.totalSupplyMap lpt) := by
    rcases hz with h | h <;> simp [h]
  simp [burnLiquidityCore, cMul, cDiv, hm0, hm1, hS', hneg]

theorem burnCore_not_ilb (sender lpt amount : Nat) (st : MarketState)
    (hm0 : amount * (st.reserves lpt).1 < U128LIM)
    (hm1 : amount * (st.reserves lpt).2 < U128LIM)
    (hS : 0 < st.totalSupplyMap lpt)
    (hp0 : 0 < amount * (st.reserves lpt).1 / st.totalSupplyMap lpt)
    (hp1 : 0 < amount * (st.reserves lpt).2 / st.totalSupplyMap lpt) :
    (burnLiquidityCore sender lpt amount st).errOf ≠ some .InsufficientLiquidityBurned := by
  have hS' : st.totalSupplyMap lpt ≠ 0 := Nat.pos_iff_ne_zero.mp hS
  unfold burnLiquidityCore
  simp only [cMul, cDiv, hm0, if_true, hS', if_false, if_pos hm0, if_pos hm1]
  rw [if_pos ⟨hp0, hp1⟩]
  split
  next => simp [Outcome.errOf]
  next st1 h1 =>
  split
  next => simp [Outcome.errOf]
  next st2 h2 =>
  split
  next => simp [Outcome.errOf]
  next st3 h3 =>
  split
  next => simp [Outcome.errOf]
  next n0 hn0 =>
  split
  next => simp [Outcome.errOf]
  next n1 hn1 => simp [Outcome.errOf]

theorem burn_errOf_eq (sender lpt amount now : Nat) (st : MarketState) :
    (burnLiquidity sender lpt amount now st).errOf =
      (burnLiquidityCore sender lpt amount st).errOf := by
  unfold burnLiquidity
  split
  next st1 evs hco =>
    rw [update_none, hco]
    rfl
  next x h2 => rfl

/-! ### Claim theorems -/

theorem burn_eq_of_core_err (sender lpt amount now : Nat) (st : MarketState)
    (e : MarketError) (st' : MarketState)
    (h : burnLiquidityCore sender lpt amount st = .err e st') :
    burnLiquidity sender lpt amount now st = .err e st' := by
  unfold burnLiquidity
  split
  next st1 evs hco =>
    rw [h] at hco
    exact absurd hco (by simp)
  next x h2 => exact h

/-- C1: the constant-product lower bound holds of the reserve update a
swap performs (the swap body up to the oracle call), but the full `swap`
dispatch never commits: its final `_update` call panics on every input,
so there is no successful swap. -/
theorem claim_swap_k_bound :
    (∀ sender f aIn t : Nat, ∀ st : MarketState, ∀ lpt : AssetId,
      st.pairsMap (f, t) = some lpt →
      (swapCore sender f aIn t st).isOk = true →
      (st.reserves lpt).1 * (st.reserves lpt).2 * (1000 - 3) / 1000 ≤
        (((swapCore sender f aIn t st).stateD st).reserves lpt).1 *
        (((swapCore sender f aIn t st).stateD st).reserves lpt).2) ∧
    (∀ sender f aIn t now : Nat, ∀ st : MarketState,
      (swap sender f aIn t now st).isOk = false) :=
  ⟨fun sender f aIn t st lpt h1 h2 => swapCore_k sender f aIn t st lpt h1 h2,
   fun sender f aIn t now st => swap_never_ok sender f aIn t now st⟩

theorem claim_swap_k_bound_witness :
    (swapCore 7 1 1000 2 stSwapEx).isOk = true ∧
    ((stSwapEx.reserves 3).1 * (stSwapEx.reserves 3).2 * (1000 - 3) / 1000 ≤
      (((swapCore 7 1 1000 2 stSwapEx).stateD stSwapEx).reserves 3).1 *
      (((swapCore 7 1 1000 2 stSwapEx).stateD stSwapEx).reserves 3).2) ∧
    (swap 7 1 1000 2 0 stSwapEx).isOk = false :=
  ⟨by decide, claim_swap_k_bound.1 7 1 1000 2 stSwapEx 3 (by decide) (by decide),
   claim_swap_k_bound.2 7 1 1000 2 0 stSwapEx⟩
/-- C2: `_get_amount_out` returns exactly the floored quotient of the
claim whenever the checked products fit in `u128` and the denominator is
positive, and it prices the scenario swap at 3984; the swap body writes
reserves (1001000, 3996016), but the full dispatch then panics in
`_update`, so the stored reserves never actually become those values. -/
theorem claim_get_amount_out_formula :
    (∀ a ri ro : Nat, a * 997 < U128LIM → a * 997 * ro < U128LIM →
      ri * 1000 < U128LIM → ri * 1000 + a * 997 < U128LIM →
      0 < ri * 1000 + a * 997 →
      getAmountOut a ri ro = some (a * 997 * ro / (ri * 1000 + a * 997))) ∧
    getAmountOut 1000 1000000 4000000 = some 3984 ∧
    ((swapCore 7 1 1000 2 stSwapEx).stateD stSwapEx).reserves 3 = (1001000, 3996016) ∧
    swap 7 1 1000 2 0 stSwapEx = .fatal :=
  ⟨getAmountOut_eq, by decide, by decide, by rfl⟩

theorem claim_get_amount_out_formula_witness :
    getAmountOut 1000 1000000 4000000
      = some (1000 * 997 * 4000000 / (1000000 * 1000 + 1000 * 997)) :=
  claim_get_amount_out_formula.1 1000 1000000 4000000 (by norm_num [U128LIM])
    (by norm_num [U128LIM]) (by norm_num [U128LIM]) (by norm_num [U128LIM]) (by norm_num)

/-- C3: on a subsequent mint with token0 > token1 the code divides
amount0 by the canonical-low reserve and adds the amounts to the
canonically stored components before the transposing write-back, so for
the scenario pool the stored reserves become (60, 15) and 50 shares are
minted, not the (30, 45) and 12 shares the claim describes; moreover the
full dispatch never commits at all, because its `_update` call panics. -/
theorem claim_mint_subsequent_reserves :
    (mintLiquidityCore 7 2 5 1 20 stMint2Ex).isOk = true ∧
    ((mintLiquidityCore 7 2 5 1 20 stMint2Ex).stateD emptyState).reservesMap 3
      = some (60, 15) ∧
    ((mintLiquidityCore 7 2 5 1 20 stMint2Ex).stateD emptyState).userBalance 3 7 = 50 ∧
    mintLiquidity 7 2 5 1 20 0 stMint2Ex = .fatal ∧
    (∀ sender t0 a0 t1 a1 now : Nat, ∀ st : MarketState, ∀ lpt : AssetId,
      st.pairsMap (t0, t1) = some lpt →
      (mintLiquidity sender t0 a0 t1 a1 now st).isOk = false) :=
  ⟨by decide, by decide, by decide, by rfl,
   fun sender t0 a0 t1 a1 now st lpt h => mint_sub_never_ok sender t0 a0 t1 a1 now st lpt h⟩

theorem claim_mint_subsequent_reserves_witness :
    (mintLiquidity 7 2 5 1 20 0 stMint2Ex).isOk = false :=
  claim_mint_subsequent_reserves.2.2.2.2 7 2 5 1 20 0 stMint2Ex 3 (by decide)
/-- C4: the first mint writes the pair registry (both orderings) and the
reserve store for the new pool-share id, but the `Rewards` map is written
by no code path of the pallet: it stays empty after pool creation and is
preserved untouched by all three dispatchables, so the three stores are
never consistent for any pool. -/
theorem claim_store_consistency :
    (mintLiquidity 7 1 1000000 2 4000000 0 stMintEx).isOk = true ∧
    ((mintLiquidity 7 1 1000000 2 4000000 0 stMintEx).stateD emptyState).pairsMap (1, 2)
      = some 3 ∧
    ((mintLiquidity 7 1 1000000 2 4000000 0 stMintEx).stateD emptyState).pairsMap (2, 1)
      = some 3 ∧
    ((mintLiquidity 7 1 1000000 2 4000000 0 stMintEx).stateD emptyState).reservesMap 3
      = some (1000000, 4000000) ∧
    ((mintLiquidity 7 1 1000000 2 4000000 0 stMintEx).stateD emptyState).rewardsMap 3
      = none ∧
    (∀ sender t0 a0 t1 a1 now : Nat, ∀ st : MarketState,
      ((mintLiquidity sender t0 a0 t1 a1 now st).stateD st).rewardsMap = st.rewardsMap) ∧
    (∀ sender lpt amount now : Nat, ∀ st : MarketState,
      ((burnLiquidity sender lpt amount now st).stateD st).rewardsMap = st.rewardsMap) ∧
    (∀ sender f aIn t now : Nat, ∀ st : MarketState,
      ((swap sender f aIn t now st).stateD st).rewardsMap = st.rewardsMap) :=
  ⟨by decide, by decide, by decide, by decide, by decide,
   fun sender t0 a0 t1 a1 now st => mint_rewards sender t0 a0 t1 a1 now st,
   fun sender lpt amount now st => burn_rewards sender lpt amount now st,
   fun sender f aIn t now st => swap_rewards sender f aIn t now st⟩
/-- C5: on a first mint for a fresh pair, the sender is minted exactly
`isqrt(amount0 * amount1) - 1000` pool shares (with `math::sqrt`, modelled
from the spec, proved equal to the exact integer square root `Nat.sqrt`);
the dispatch aborts fatally when the subtraction of the minimum liquidity
underflows; and the scenario mint yields 1999000 shares with stored
reserves (1000000, 4000000). -/
theorem claim_mint_first_shares :
    (∀ n : Nat, mathSqrt n = Nat.sqrt n) ∧
    (∀ sender t0 a0 t1 a1 now : Nat, ∀ st : MarketState,
      t0 ≠ t1 → st.pairsMap (t0, t1) = none → a0 * a1 < U128LIM →
      mathSqrt (a0 * a1) < 1000 →
      a0 ≤ st.userBalance t0 sender → a1 ≤ st.userBalance t1 sender →
      mintLiquidity sender t0 a0 t1 a1 now st = .fatal) ∧
    (∀ sender t0 a0 t1 a1 now : Nat, ∀ st : MarketState,
      t0 ≠ t1 → st.pairsMap (t0, t1) = none → a0 * a1 < U128LIM →
      1000 ≤ mathSqrt (a0 * a1) →
      a0 ≤ st.userBalance t0 sender → a1 ≤ st.userBalance t1 sender →
      t0 ≠ st.nextAssetId → t1 ≠ st.nextAssetId →
      (mintLiquidity sender t0 a0 t1 a1 now st).isOk = true ∧
      ((mintLiquidity sender t0 a0 t1 a1 now st).stateD st).userBalance
          st.nextAssetId sender
        = st.userBalance st.nextAssetId sender + (mathSqrt (a0 * a1) - 1000) ∧
      ((mintLiquidity sender t0 a0 t1 a1 now st).stateD st).totalSupplyMap st.nextAssetId
        = mathSqrt (a0 * a1) - 1000) ∧
    (mintLiquidity 7 1 1000000 2 4000000 0 stMintEx).isOk = true ∧
    ((mintLiquidity 7 1 1000000 2 4000000 0 stMintEx).stateD emptyState).userBalance 3 7
      = 1999000 ∧
    ((mintLiquidity 7 1 1000000 2 4000000 0 stMintEx).stateD emptyState).reservesMap 3
      = some (1000000, 4000000) := by
  refine ⟨mathSqrt_eq, ?_, ?_, by decide, by decide, by decide⟩
  · intro sender t0 a0 t1 a1 now st hne hpair hov hsq h0 h1
    rw [mint_first_eq_core sender t0 a0 t1 a1 now st hpair]
    exact mintCore_first_fatal sender t0 a0 t1 a1 st hne hpair hov hsq h0 h1
  · intro sender t0 a0 t1 a1 now st hne hpair hov hsq h0 h1 ht0 ht1
    rw [mint_first_eq_core sender t0 a0 t1 a1 now st hpair]
    have h := mintCore_first_ok sender t0 a0 t1 a1 st hne hpair hov hsq h0 h1 ht0 ht1
    exact ⟨h.1, h.2.1, h.2.2.1⟩

theorem claim_mint_first_shares_witness :
    ((mintLiquidity 7 1 1000000 2 4000000 11 stMintEx).isOk = true ∧
     ((mintLiquidity 7 1 1000000 2 4000000 11 stMintEx).stateD stMintEx).userBalance
         stMintEx.nextAssetId 7
       = stMintEx.userBalance stMintEx.nextAssetId 7 + (mathSqrt (1000000 * 4000000) - 1000) ∧
     ((mintLiquidity 7 1 1000000 2 4000000 11 stMintEx).stateD stMintEx).totalSupplyMap
         stMintEx.nextAssetId
       = mathSqrt (1000000 * 4000000) - 1000) ∧
    mintLiquidity 7 1 0 2 0 0 emptyState = .fatal :=
  ⟨claim_mint_first_shares.2.2.1 7 1 1000000 2 4000000 11 stMintEx (by decide) (by decide)
      (by decide) (by decide) (by decide) (by decide) (by decide) (by decide),
   claim_mint_first_shares.2.1 7 1 0 2 0 0 emptyState (by decide) (by decide) (by decide)
      (by decide) (by decide) (by decide)⟩
/-- C6: the pro-rata payout amounts and the reserve decrements are as
claimed, and `InsufficientLiquidityBurned` is returned, changing nothing,
exactly when a floored payout is zero; but the payouts are transferred in
the assets recorded in the never-populated `Rewards` map (the defaults
`(0, 0)`), not in the pool's two tokens, and the full dispatch never
commits because its final `_update` call panics. -/
theorem claim_burn_pro_rata :
    (burnLiquidityCore 7 3 50 stBurnEx).isOk = true ∧
    ((burnLiquidityCore 7 3 50 stBurnEx).stateD emptyState).userBalance 0 7 = 25 ∧
    ((burnLiquidityCore 7 3 50 stBurnEx).stateD emptyState).userBalance 1 7 = 0 ∧
    ((burnLiquidityCore 7 3 50 stBurnEx).stateD emptyState).userBalance 2 7 = 0 ∧
    ((burnLiquidityCore 7 3 50 stBurnEx).stateD emptyState).reservesMap 3 = some (5, 20) ∧
    ((burnLiquidityCore 7 3 50 stBurnEx).stateD emptyState).totalSupplyMap 3 = 50 ∧
    (∀ sender lpt amount now : Nat, ∀ st : MarketState,
      amount * (st.reserves lpt).1 < U128LIM → amount * (st.reserves lpt).2 < U128LIM →
      0 < st.totalSupplyMap lpt →
      ((burnLiquidity sender lpt amount now st).errOf
          = some .InsufficientLiquidityBurned ↔
        (amount * (st.reserves lpt).1 / st.totalSupplyMap lpt = 0 ∨
         amount * (st.reserves lpt).2 / st.totalSupplyMap lpt = 0))) ∧
    (∀ sender lpt amount now : Nat, ∀ st : MarketState,
      amount * (st.reserves lpt).1 < U128LIM → amount * (st.reserves lpt).2 < U128LIM →
      0 < st.totalSupplyMap lpt →
      (amount * (st.reserves lpt).1 / st.totalSupplyMap lpt = 0 ∨
       amount * (st.reserves lpt).2 / st.totalSupplyMap lpt = 0) →
      burnLiquidity sender lpt amount now st
        = .err .InsufficientLiquidityBurned st) ∧
    (∀ sender lpt amount now : Nat, ∀ st : MarketState,
      (burnLiquidity sender lpt amount now st).isOk = false) := by
  refine ⟨by decide, by decide, by decide, by decide, by decide, by decide, ?_, ?_, ?_⟩
  · intro sender lpt amount now st hm0 hm1 hS
    rw [burn_errOf_eq]
    constructor
    · intro h
      by_contra hc
      push_neg at hc
      obtain ⟨hc0, hc1⟩ := hc
      exact burnCore_not_ilb sender lpt amount st hm0 hm1 hS
        (Nat.pos_of_ne_zero hc0) (Nat.pos_of_ne_zero hc1) h
    · intro hz
      rw [burnCore_ilb sender lpt amount st hm0 hm1 hS hz]
      rfl
  · intro sender lpt amount now st hm0 hm1 hS hz
    exact burn_eq_of_core_err sender lpt amount now st _ _
      (burnCore_ilb sender lpt amount st hm0 hm1 hS hz)
  · intro sender lpt amount now st
    exact burn_never_ok sender lpt amount now st

theorem claim_burn_pro_rata_witness :
    ((burnLiquidity 7 3 50 0 stBurnEx).errOf = some .InsufficientLiquidityBurned ↔
      (50 * (stBurnEx.reserves 3).1 / stBurnEx.totalSupplyMap 3 = 0 ∨
       50 * (stBurnEx.reserves 3).2 / stBurnEx.totalSupplyMap 3 = 0)) ∧
    burnLiquidity 7 3 0 0 stBurnEx = .err .InsufficientLiquidityBurned stBurnEx :=
  ⟨claim_burn_pro_rata.2.2.2.2.2.2.1 7 3 50 0 stBurnEx (by decide) (by decide) (by decide),
   claim_burn_pro_rata.2.2.2.2.2.2.2.1 7 3 0 0 stBurnEx (by decide) (by decide) (by decide)
     (by decide)⟩
/-- C7 (amended): a mint that finds an existing pool entry whose
pool-share supply is zero fails with the error `NoneValue` - not
`InsufficientLiquidityMinted`, whose guard `total_supply < 0` can never
hold for an unsigned balance - and writes none of the pool stores. -/
theorem claim_mint_zero_supply_error :
    ∀ sender t0 a0 t1 a1 now : Nat, ∀ st : MarketState, ∀ lpt : AssetId,
      t0 ≠ t1 → st.pairsMap (t0, t1) = some lpt → st.totalSupplyMap lpt = 0 →
      a0 ≤ st.userBalance t0 sender → a1 ≤ st.userBalance t1 sender →
      (mintLiquidity sender t0 a0 t1 a1 now st).errOf = some .NoneValue ∧
      ((mintLiquidity sender t0 a0 t1 a1 now st).stateD st).pairsMap = st.pairsMap ∧
      ((mintLiquidity sender t0 a0 t1 a1 now st).stateD st).reservesMap = st.reservesMap ∧
      ((mintLiquidity sender t0 a0 t1 a1 now st).stateD st).rewardsMap = st.rewardsMap ∧
      ((mintLiquidity sender t0 a0 t1 a1 now st).stateD st).totalSupplyMap
        = st.totalSupplyMap :=
  fun sender t0 a0 t1 a1 now st lpt hne hpair hS h0 h1 =>
    mint_zero_supply sender t0 a0 t1 a1 now st lpt hne hpair hS h0 h1

theorem claim_mint_zero_supply_error_cex :
    (mintLiquidity 7 1 5 2 5 0 stZeroSupplyEx).errOf = some .NoneValue ∧
    (mintLiquidity 7 1 5 2 5 0 stZeroSupplyEx).errOf
      ≠ some .InsufficientLiquidityMinted :=
  ⟨by decide, by decide⟩

theorem claim_mint_zero_supply_error_witness :
    (mintLiquidity 7 1 5 2 5 0 stZeroSupplyEx).errOf = some .NoneValue ∧
    ((mintLiquidity 7 1 5 2 5 0 stZeroSupplyEx).stateD stZeroSupplyEx).pairsMap
      = stZeroSupplyEx.pairsMap ∧
    ((mintLiquidity 7 1 5 2 5 0 stZeroSupplyEx).stateD stZeroSupplyEx).reservesMap
      = stZeroSupplyEx.reservesMap ∧
    ((mintLiquidity 7 1 5 2 5 0 stZeroSupplyEx).stateD stZeroSupplyEx).rewardsMap
      = stZeroSupplyEx.rewardsMap ∧
    ((mintLiquidity 7 1 5 2 5 0 stZeroSupplyEx).stateD stZeroSupplyEx).totalSupplyMap
      = stZeroSupplyEx.totalSupplyMap :=
  claim_mint_zero_supply_error 7 1 5 2 5 0 stZeroSupplyEx 3 (by decide) (by decide)
    (by decide) (by decide) (by decide)
/-- C8: `_set_reserves` persists the caller-supplied amounts transposed
whenever `token0 > token1`, so for distinct tokens the first stored
component is the amount associated with the smaller token and the second
the amount associated with the larger one. -/
theorem claim_set_reserves_canonical :
    ∀ t0 t1 : AssetId, ∀ a0 a1 : Balance, ∀ lpt : AssetId, ∀ st : MarketState,
      t0 ≠ t1 →
      (setReserves t0 t1 a0 a1 lpt st).reservesMap lpt =
        some (if t0 = min t0 t1 then a0 else a1, if t0 = max t0 t1 then a0 else a1) := by
  intro t0 t1 a0 a1 lpt st hne
  rw [setReserves_same]
  by_cases h : t1 < t0
  · have hm : min t0 t1 = t1 := Nat.min_eq_right (Nat.le_of_lt h)
    have hx : max t0 t1 = t0 := Nat.max_eq_left (Nat.le_of_lt h)
    rw [if_pos h, hm, hx, if_neg (fun hc => hne hc), if_pos rfl]
  · have ht : t0 ≤ t1 := Nat.le_of_not_lt h
    have hm : min t0 t1 = t0 := Nat.min_eq_left ht
    have hx : max t0 t1 = t1 := Nat.max_eq_right ht
    rw [if_neg h, hm, hx, if_pos rfl, if_neg (fun hc => hne hc)]

theorem claim_set_reserves_canonical_witness :
    (setReserves 5 2 11 22 9 emptyState).reservesMap 9 =
      some (if 5 = min 5 2 then 11 else 22, if 5 = max 5 2 then 11 else 22) :=
  claim_set_reserves_canonical 5 2 11 22 9 emptyState (by decide)

/-- C9: `_update` is never a no-op on a second zero-elapsed call, because
it is never anything at all: the modulus `2u32.pow(32)` overflows `u32`
to zero, so every `_update` call panics (at the `pow` under overflow
checks, at the `%` by zero otherwise) and aborts its dispatch. -/
theorem claim_update_zero_elapsed :
    oracleModulus = 0 ∧
    (∀ pair now : Nat, ∀ st : MarketState, update pair now st = none) :=
  ⟨oracleModulus_eq_zero, update_none⟩

/-- C10: the priced output of `_get_amount_out` is strictly below the
output-side reserve for positive input and reserves, and the reserve
write-back of the swap body keeps both stored reserves strictly positive;
the full `swap` dispatch itself never commits, because its final
`_update` call panics. -/
theorem claim_amount_out_lt_reserve :
    (∀ a ri ro out : Nat, 0 < a → 0 < ri → 0 < ro →
      getAmountOut a ri ro = some out → out < ro) ∧
    (∀ sender f aIn t : Nat, ∀ st : MarketState, ∀ lpt : AssetId,
      st.pairsMap (f, t) = some lpt →
      (swapCore sender f aIn t st).isOk = true →
      0 < (((swapCore sender f aIn t st).stateD st).reserves lpt).1 ∧
      0 < (((swapCore sender f aIn t st).stateD st).reserves lpt).2) ∧
    (∀ sender f aIn t now : Nat, ∀ st : MarketState,
      (swap sender f aIn t now st).isOk = false) :=
  ⟨getAmountOut_lt,
   fun sender f aIn t st lpt h1 h2 => swapCore_pos sender f aIn t st lpt h1 h2,
   fun sender f aIn t now st => swap_never_ok sender f aIn t now st⟩

theorem claim_amount_out_lt_reserve_witness :
    (3984 : Nat) < 4000000 ∧
    (0 < (((swapCore 7 1 1000 2 stSwapEx).stateD stSwapEx).reserves 3).1 ∧
     0 < (((swapCore 7 1 1000 2 stSwapEx).stateD stSwapEx).reserves 3).2) :=
  ⟨claim_amount_out_lt_reserve.1 1000 1000000 4000000 3984 (by decide) (by decide)
      (by decide) (by decide),
   claim_amount_out_lt_reserve.2.1 7 1 1000 2 stSwapEx 3 (by decide) (by decide)⟩

end Subswap
